import Mathlib

/-!
Shallow embedding of the fetch-and-cache subsystem of `rosetta`
(file `rosetta/fetch.py`), together with theorems checking the
natural-language specification against it.

Strings are modelled as `List Char` (the characters of a Python `str`),
raw bytes as `List Nat` (byte values).  Each definition is a direct
translation of the corresponding Python function; comments cite the
source lines.
-/

set_option maxRecDepth 8000

namespace Rosetta

/-! ### `sanitize` (fetch.py lines 119-134) -/

/-- One character of the class kept by `re.sub(r'[^\w\-_.]', '_', filename)`:
word characters (we model the ASCII fragment of Python's unicode `\w`,
which is all the sanitize claims exercise), hyphen, underscore, dot. -/
def keepChar (c : Char) : Bool :=
  c.isAlphanum || c == '_' || c == '-' || c == '.'

/-- The substitution performed by `re.sub(r'[^\w\-_.]', '_', filename)`:
characters outside the class become `'_'`. -/
def replChar (c : Char) : Char :=
  if keepChar c then c else '_'

/-- `re.sub(r'__+', '_', s)`: every maximal run of two or more underscores
collapses to a single underscore (a lone underscore is left alone, which
gives the same result as collapsing every maximal run to one). -/
def squeeze : List Char → List Char
  | [] => []
  | [c] => [c]
  | c :: d :: rest =>
    if c == '_' && d == '_' then squeeze (d :: rest)
    else c :: squeeze (d :: rest)

def isUnd (c : Char) : Bool := c == '_'

/-- `s.strip('_')`: remove leading and trailing underscores. -/
def stripUnd (l : List Char) : List Char :=
  (l.dropWhile isUnd).rdropWhile isUnd

/-- `sanitize` (fetch.py lines 119-134): replace disallowed characters by
underscores, collapse consecutive underscores, strip edge underscores,
then truncate to 255 characters (in that order). -/
def sanitize (l : List Char) : List Char :=
  (stripUnd (squeeze (l.map replChar))).take 255

/-- `sanitize` on Lean strings. -/
def sanitizeS (s : String) : String := String.mk (sanitize s.data)

/-! ### Substrings and content types -/

/-- Containment of one character list inside another at any position. -/
def listContains (pat : List Char) : List Char → Bool
  | [] => pat.isPrefixOf []
  | c :: cs => pat.isPrefixOf (c :: cs) || listContains pat cs

/-- `a in b` on Python strings: `a` occurs contiguously inside `b`. -/
def substrOf (a b : String) : Bool := listContains a.data b.data

/-- `Fetch._get_extension` (fetch.py lines 185-196).  The Python loop is
`for k, ext in mapping.items(): if content_type in k: return ext`, i.e. it
tests whether the content-type string occurs INSIDE the mapping key
(dict iteration follows insertion order). -/
def getExtension (contentType : String) : String :=
  if substrOf contentType "text/html" then ".html"
  else if substrOf contentType "application/json" then ".json"
  else if substrOf contentType "text/plain" then ".txt"
  else if substrOf contentType "application/pdf" then ".pdf"
  else ".txt"

/-- Modelled from the spec: the extension resolver the spec describes,
"substring containment against a fixed mapping" keyed by whether the
MAPPING KEY occurs inside the content-type header (the direction the
code comment on fetch.py lines 191-192 documents). -/
def getExtensionSpec (contentType : String) : String :=
  if substrOf "text/html" contentType then ".html"
  else if substrOf "application/json" contentType then ".json"
  else if substrOf "text/plain" contentType then ".txt"
  else if substrOf "application/pdf" contentType then ".pdf"
  else ".txt"

/-! ### UTF-8 codecs

`bytes.decode('utf-8')` (strict) and `bytes.decode('utf-8', errors='ignore')`
(lossy).  Bytes are `Nat` values; the decoder follows the standard UTF-8
validation table (continuation ranges, surrogate and overlong exclusion,
max U+10FFFF).  The fuel argument is the length of the byte list. -/

def isCont (b : Nat) : Bool := 0x80 ≤ b && b ≤ 0xBF

def cp2 (b b1 : Nat) : Char := Char.ofNat ((b - 0xC0) * 0x40 + (b1 - 0x80))

def cp3 (b b1 b2 : Nat) : Char :=
  Char.ofNat ((b - 0xE0) * 0x1000 + (b1 - 0x80) * 0x40 + (b2 - 0x80))

def cp4 (b b1 b2 b3 : Nat) : Char :=
  Char.ofNat ((b - 0xF0) * 0x40000 + (b1 - 0x80) * 0x1000 +
    (b2 - 0x80) * 0x40 + (b3 - 0x80))

def utf8DecodeAux : Nat → List Nat → Option (List Char)
  | _, [] => some []
  | 0, _ :: _ => none
  | f + 1, b :: rest =>
    if b < 0x80 then
      (utf8DecodeAux f rest).map (fun cs => Char.ofNat b :: cs)
    else if 0xC2 ≤ b && b ≤ 0xDF then
      match rest with
      | b1 :: r =>
        if isCont b1 then (utf8DecodeAux f r).map (fun cs => cp2 b b1 :: cs)
        else none
      | [] => none
    else if b == 0xE0 then
      match rest with
      | b1 :: b2 :: r =>
        if (0xA0 ≤ b1 && b1 ≤ 0xBF) && isCont b2 then
          (utf8DecodeAux f r).map (fun cs => cp3 b b1 b2 :: cs)
        else none
      | _ => none
    else if (0xE1 ≤ b && b ≤ 0xEC) || (0xEE ≤ b && b ≤ 0xEF) then
      match rest with
      | b1 :: b2 :: r =>
        if isCont b1 && isCont b2 then
          (utf8DecodeAux f r).map (fun cs => cp3 b b1 b2 :: cs)
        else none
      | _ => none
    else if b == 0xED then
      match rest with
      | b1 :: b2 :: r =>
        if (0x80 ≤ b1 && b1 ≤ 0x9F) && isCont b2 then
          (utf8DecodeAux f r).map (fun cs => cp3 b b1 b2 :: cs)
        else none
      | _ => none
    else if b == 0xF0 then
      match rest with
      | b1 :: b2 :: b3 :: r =>
        if (0x90 ≤ b1 && b1 ≤ 0xBF) && (isCont b2 && isCont b3) then
          (utf8DecodeAux f r).map (fun cs => cp4 b b1 b2 b3 :: cs)
        else none
      | _ => none
    else if 0xF1 ≤ b && b ≤ 0xF3 then
      match rest with
      | b1 :: b2 :: b3 :: r =>
        if isCont b1 && (isCont b2 && isCont b3) then
          (utf8DecodeAux f r).map (fun cs => cp4 b b1 b2 b3 :: cs)
        else none
      | _ => none
    else if b == 0xF4 then
      match rest with
      | b1 :: b2 :: b3 :: r =>
        if (0x80 ≤ b1 && b1 ≤ 0x8F) && (isCont b2 && isCont b3) then
          (utf8DecodeAux f r).map (fun cs => cp4 b b1 b2 b3 :: cs)
        else none
      | _ => none
    else none

/-- Strict decode: `bytes.decode('utf-8')`; `none` models a raised
`UnicodeDecodeError`. -/
def utf8Decode (l : List Nat) : Option (List Char) := utf8DecodeAux l.length l

def utf8LossyAux : Nat → List Nat → List Char
  | _, [] => []
  | 0, _ :: _ => []
  | f + 1, b :: rest =>
    if b < 0x80 then Char.ofNat b :: utf8LossyAux f rest
    else if 0xC2 ≤ b && b ≤ 0xDF then
      match rest with
      | b1 :: r =>
        if isCont b1 then cp2 b b1 :: utf8LossyAux f r
        else utf8LossyAux f rest
      | [] => []
    else if (0xE0 ≤ b && b ≤ 0xEF) then
      match rest with
      | b1 :: b2 :: r =>
        if isCont b1 && isCont b2 then cp3 b b1 b2 :: utf8LossyAux f r
        else utf8LossyAux f rest
      | _ => utf8LossyAux f rest
    else if (0xF0 ≤ b && b ≤ 0xF4) then
      match rest with
      | b1 :: b2 :: b3 :: r =>
        if isCont b1 && (isCont b2 && isCont b3) then
          cp4 b b1 b2 b3 :: utf8LossyAux f r
        else utf8LossyAux f rest
      | _ => utf8LossyAux f rest
    else utf8LossyAux f rest

/-- Lossy decode: `bytes.decode('utf-8', errors='ignore')`.  Invalid bytes
are skipped (we model the resume policy as skip-one-byte; the claims only
use that this decode is total and never fails). -/
def utf8DecodeLossy (l : List Nat) : List Char := utf8LossyAux l.length l

/-- UTF-8 encoding of a character list (used when the downloader writes
text to a cache file). -/
def utf8EncodeChar (c : Char) : List Nat :=
  let v := c.toNat
  if v < 0x80 then [v]
  else if v < 0x800 then [0xC0 + v / 0x40, 0x80 + v % 0x40]
  else if v < 0x10000 then
    [0xE0 + v / 0x1000, 0x80 + v / 0x40 % 0x40, 0x80 + v % 0x40]
  else
    [0xF0 + v / 0x40000, 0x80 + v / 0x1000 % 0x40,
     0x80 + v / 0x40 % 0x40, 0x80 + v % 0x40]

def utf8Encode (l : List Char) : List Nat := l.flatMap utf8EncodeChar

/-! ### File suffixes and directory read-back -/

/-- `FILETYPES` (fetch.py lines 21-29). -/
def FILETYPES : List String :=
  [".pdf",
   ".py", ".pyc", ".ipynb",
   ".txt", ".md", ".org",
   ".java",
   ".c", ".h", ".cpp",
   ".js", ".html", ".css", ".ts", ".jsx",
   ".hs"]

/-- `pathlib.PurePath.suffix`: the extension of a file name, i.e.
`name[i:]` where `i = name.rfind('.')`, provided `0 < i < len(name)-1`;
otherwise the empty string. -/
def pathSuffix (name : String) : String :=
  let r := name.data.reverse
  let pre := r.takeWhile (fun c => c != '.')
  if pre.length == r.length then ""          -- no dot at all
  else if pre.length == 0 then ""            -- name ends with a dot
  else if pre.length + 1 == r.length then "" -- the only dot is the first char
  else String.mk ('.' :: pre.reverse)

/-- What `read_from_disk` finds at a path: a directory with named files,
a single file, or nothing. -/
inductive PathNode
  | dir (entries : List (String × List Nat))
  | file (name : String) (content : List Nat)
  | missing

/-- `read_from_disk` (fetch.py lines 152-173): directory → the files whose
suffix is in `FILETYPES`; allow-listed single file → itself; anything else
→ warning and empty list. -/
def read_from_disk : PathNode → List (String × List Nat)
  | PathNode.dir entries =>
    entries.filter (fun e => FILETYPES.contains (pathSuffix e.1))
  | PathNode.file name content =>
    if FILETYPES.contains (pathSuffix name) then [(name, content)] else []
  | PathNode.missing => []

/-! ### `read_unicode` (fetch.py lines 38-64) -/

inductive UniErr
  | decodeError   -- UnicodeDecodeError from a strict decode
  | nameError     -- NameError: the called helper is not defined anywhere
deriving DecidableEq

/-- `read_unicode`.  Dispatch on `file_path.suffix`:
* `.pdf` → `PdfReader(...)` — but `PdfReader` is never imported or defined
  in the repository, so the call raises `NameError`;
* `.html` → `BeautifulSoup(...).get_text()`, modelled by the `soup` oracle;
* `.txt` / `.json` → strict UTF-8 decode;
* `.txt` / `.ipynb` → `convert_ipynb_to_py(buf)` — also an undefined name,
  so `NameError` (the `.txt` test here is dead, shadowed by the branch above);
* anything else → lossy UTF-8 decode. -/
def read_unicode (soup : List Nat → String) (name : String) (content : List Nat) :
    Except UniErr String :=
  if pathSuffix name == ".pdf" then Except.error UniErr.nameError
  else if pathSuffix name == ".html" then Except.ok (soup content)
  else if pathSuffix name == ".txt" || pathSuffix name == ".json" then
    match utf8Decode content with
    | some cs => Except.ok (String.mk cs)
    | none => Except.error UniErr.decodeError
  else if pathSuffix name == ".txt" || pathSuffix name == ".ipynb" then
    Except.error UniErr.nameError
  else Except.ok (String.mk (utf8DecodeLossy content))

/-! ### `extract_video_id` (fetch.py lines 70-83) -/

/-- The regex character class `[a-zA-Z0-9_-]`. -/
def idChar (c : Char) : Bool := c.isAlphanum || c == '_' || c == '-'

/-- Match `([a-zA-Z0-9_-]{11})` at the start of `s`. -/
def take11 (s : List Char) : Option (List Char) :=
  let id := s.take 11
  if id.length == 11 && id.all idChar then some id else none

/-- Match a literal followed by an 11-character id at the start of `s`. -/
def matchLit11 (lit : List Char) (s : List Char) : Option (List Char) :=
  if lit.isPrefixOf s then take11 (s.drop lit.length) else none

/-- `re.search`: try the matcher at every start position, leftmost first. -/
def scanA (f : List Char → Option (List Char)) : List Char → Option (List Char)
  | [] => f []
  | c :: cs =>
    match f (c :: cs) with
    | some r => some r
    | none => scanA f cs

/-- Match `#t=` + digits + `m` + digits + `s` at the start of `s`
(the timestamp tail of the fifth pattern). -/
def tsTail (s : List Char) : Bool :=
  if ('#' :: 't' :: '=' :: []).isPrefixOf s then
    let r := s.drop 3
    let d1 := r.takeWhile Char.isDigit
    if d1.isEmpty then false
    else
      match r.drop d1.length with
      | 'm' :: r3 =>
        let d2 := r3.takeWhile Char.isDigit
        if d2.isEmpty then false
        else
          match r3.drop d2.length with
          | 's' :: _ => true
          | _ => false
      | _ => false
  else false

/-- `.*#t=\d+m\d+s` starting at `s`: the gap matched by `.*` may be any
characters except a newline. -/
def scanNoNL : List Char → Bool
  | [] => tsTail []
  | c :: cs => tsTail (c :: cs) || (c != '\n' && scanNoNL cs)

/-- The fifth pattern,
`youtube\.com/watch\?v=([a-zA-Z0-9_-]{11})&.*#t=(\d+)m(\d+)s`,
tried at one start position. -/
def pat5At (s : List Char) : Option (List Char) :=
  if ("youtube.com/watch?v=".data).isPrefixOf s then
    let rest := s.drop 20
    match take11 rest with
    | some id =>
      match rest.drop 11 with
      | '&' :: r2 => if scanNoNL r2 then some id else none
      | _ => none
    | none => none
  else none

/-- `extract_video_id`: the five regex patterns, tried in order; the first
match wins; the result is the captured 11-character group. -/
def extract_video_id (url : String) : Option String :=
  let s := url.data
  let r :=
    match scanA (matchLit11 "youtube.com/watch?v=".data) s with
    | some id => some id
    | none =>
      match scanA (matchLit11 "youtu.be/".data) s with
      | some id => some id
      | none =>
        match scanA (matchLit11 "youtube.com/embed/".data) s with
        | some id => some id
        | none =>
          match scanA (matchLit11 "youtube.com/v/".data) s with
          | some id => some id
          | none => scanA pat5At s
  r.map String.mk

/-! ### `fetch_online` (fetch.py lines 222-342) -/

/-- `str.replace(pat, rep)`: replace all non-overlapping occurrences,
left to right.  The fuel is the length of the subject (the pattern used
by the code, `"abs"`, is non-empty, so this is exact). -/
def replaceAllAux (pat rep : List Char) : Nat → List Char → List Char
  | _, [] => []
  | 0, s => s
  | f + 1, c :: cs =>
    if pat.isPrefixOf (c :: cs) then
      rep ++ replaceAllAux pat rep f ((c :: cs).drop pat.length)
    else c :: replaceAllAux pat rep f cs

def replaceAll (pat rep : List Char) (s : List Char) : List Char :=
  replaceAllAux pat rep s.length s

/-- `Fetch._preprocess_url` (fetch.py lines 198-202). -/
def preprocessUrl (url : String) : String :=
  if substrOf "arxiv.org" url then
    String.mk (replaceAll "abs".data "pdf".data url.data)
  else url

/-- The cache: sanitized key → directory contents (name, bytes).
A key being present models the directory existing on disk. -/
abbrev FS := List (String × List (String × List Nat))

def lookupFS (fs : FS) (k : String) : Option (List (String × List Nat)) :=
  List.lookup k fs

def fsNode (fs : FS) (k : String) : PathNode :=
  match lookupFS fs k with
  | some es => PathNode.dir es
  | none => PathNode.missing

/-- Outcome of `Repo.clone_from`. -/
inductive GitResult
  | cloneOk (entries : List (String × List Nat))
  | cloneErr (msg : String)

/-- Outcome of the title+transcript calls inside the youtube `try` block:
either the resolved page title (meta `og:title`, possibly absent) and the
transcript lines, or any exception. -/
inductive YtResult
  | ytOk (pageTitle : Option String) (lines : List String)
  | ytErr

/-- Outcome of `requests.get`: an `SSLError` (caught), any other exception
(NOT caught), or a response carrying status, content-type header, raw body
bytes, decoded text body, inferred page title and soup text. -/
inductive HttpResult
  | sslError
  | netExn (msg : String)
  | resp (status : Nat) (contentType : String) (body : List Nat)
      (textBody : String) (pageTitle : Option String) (pageText : String)

inductive FetchErr
  | gitClone (msg : String)
  | httpExn (msg : String)
deriving DecidableEq

deriving instance DecidableEq for Except

/-- `full_transcript = ""` then `+= " " + line['text']` per line. -/
def transcriptJoin (lines : List String) : String :=
  lines.foldl (fun acc t => acc ++ " " ++ t) ""

/-- `Fetch.fetch_online` (fetch.py lines 222-342) as a state-passing
function.  The returned `FS` is the cache after the call (directory
creations persist even when an exception propagates); the `Except` is
the returned file list or the propagated exception.

Control flow from the source: preprocess the URL, sanitize it into the
cache key; if the directory exists, skip all downloading; otherwise
dispatch on `github.com` / `youtube.com` / `youtu.be` markers, else the
generic HTTP path (which catches only `SSLError` and returns `[]`; other
request exceptions propagate; a non-200 status only logs).  All paths
except the `SSLError` early return end in `read_from_disk(dir_path)`. -/
def fetch_online (title : Option String) (url : String) (git : GitResult)
    (yt : YtResult) (http : HttpResult) (fs : FS) :
    FS × Except FetchErr (List (String × List Nat)) :=
  let u := preprocessUrl url
  let key := sanitizeS u
  if (lookupFS fs key).isSome then
    (fs, Except.ok (read_from_disk (fsNode fs key)))
  else if substrOf "github.com" u then
    -- os.makedirs(dir_path) then Repo.clone_from(url, dir_path)
    let fs1 : FS := (key, []) :: fs
    match git with
    | GitResult.cloneOk entries =>
      let fs2 : FS := (key, entries) :: fs1
      (fs2, Except.ok (read_from_disk (fsNode fs2 key)))
    | GitResult.cloneErr m => (fs1, Except.error (FetchErr.gitClone m))
  else if substrOf "youtube.com" u || substrOf "youtu.be" u then
    match extract_video_id u with
    | none => (fs, Except.ok (read_from_disk (fsNode fs key)))
    | some vid =>
      match yt with
      | YtResult.ytErr => (fs, Except.ok (read_from_disk (fsNode fs key)))
      | YtResult.ytOk pageTitle lines =>
        let t := match pageTitle with
                 | some s => sanitizeS s
                 | none => vid
        let fs1 : FS :=
          (key, [(t ++ ".txt", utf8Encode (transcriptJoin lines).data)]) :: fs
        (fs1, Except.ok (read_from_disk (fsNode fs1 key)))
  else
    match http with
    | HttpResult.sslError => (fs, Except.ok [])
    | HttpResult.netExn m => (fs, Except.error (FetchErr.httpExn m))
    | HttpResult.resp status ct body textBody pageTitle pageText =>
      if status == 200 then
        let ext := getExtension ct
        if ext == ".html" then
          let t := match title with
                   | some s => s
                   | none => match pageTitle with
                             | some s => s
                             | none => key
          let fs1 : FS := (key, [(t ++ ext, utf8Encode pageText.data)]) :: fs
          (fs1, Except.ok (read_from_disk (fsNode fs1 key)))
        else if ext == ".pdf" then
          let t := match title with | some s => s | none => key
          let fs1 : FS := (key, [(t ++ ext, body)]) :: fs
          (fs1, Except.ok (read_from_disk (fsNode fs1 key)))
        else
          let t := match title with | some s => s | none => key
          let fs1 : FS := (key, [(t ++ ext, utf8Encode textBody.data)]) :: fs
          (fs1, Except.ok (read_from_disk (fsNode fs1 key)))
      else (fs, Except.ok (read_from_disk (fsNode fs key)))

/-! #### Helper lemmas about the sanitize pipeline -/

/-- The relation "not both underscores" between adjacent characters. -/
def NotUU (a b : Char) : Prop := ¬(a = '_' ∧ b = '_')

theorem head?_squeeze_cons : ∀ (l : List Char) (d : Char),
    (squeeze (d :: l)).head? = some d := by
  intro l
  induction l with
  | nil => intro d; rfl
  | cons e r ih =>
    intro d
    by_cases h : d == '_' && e == '_'
    · have hd : d = '_' := by
        have := (Bool.and_eq_true _ _).mp h
        exact eq_of_beq this.1
      have he : e = '_' := by
        have := (Bool.and_eq_true _ _).mp h
        exact eq_of_beq this.2
      simp only [squeeze, h, if_true]
      rw [ih e, hd, he]
    · simp only [squeeze, h, if_false]
      rfl

theorem squeeze_chain : ∀ (l : List Char), (squeeze l).Chain' NotUU := by
  intro l
  induction l using squeeze.induct with
  | case1 => simp [squeeze]
  | case2 c => simp [squeeze]
  | case3 c d rest h ih =>
    simpa [squeeze, h] using ih
  | case4 c d rest h ih =>
    have hsq : squeeze (c :: d :: rest) = c :: squeeze (d :: rest) := by
      simp only [squeeze]
      rw [if_neg h]
    rw [hsq]
    rw [List.chain'_cons']
    refine ⟨?_, ih⟩
    intro y hy
    rw [head?_squeeze_cons] at hy
    have hyd : d = y := by injection hy
    subst hyd
    intro hc
    apply h
    rw [Bool.and_eq_true]
    exact ⟨beq_iff_eq.mpr hc.1, beq_iff_eq.mpr hc.2⟩

theorem squeeze_sublist : ∀ (l : List Char), List.Sublist (squeeze l) l := by
  intro l
  induction l using squeeze.induct with
  | case1 => simp [squeeze]
  | case2 c => simp [squeeze]
  | case3 c d rest h ih =>
    simp only [squeeze, h, if_true]
    exact ih.trans (List.sublist_cons_self _ _)
  | case4 c d rest h ih =>
    have hsq : squeeze (c :: d :: rest) = c :: squeeze (d :: rest) := by
      simp only [squeeze]
      rw [if_neg h]
    rw [hsq]
    exact ih.cons₂ c

/-- A list whose adjacent characters are never both underscores is left
unchanged by `squeeze`. -/
theorem squeeze_of_chain : ∀ (l : List Char), l.Chain' NotUU → squeeze l = l := by
  intro l
  induction l using squeeze.induct with
  | case1 => intro _; rfl
  | case2 c => intro _; rfl
  | case3 c d rest h ih =>
    intro hch
    exfalso
    have hc : c = '_' := eq_of_beq ((Bool.and_eq_true _ _).mp h).1
    have hd : d = '_' := eq_of_beq ((Bool.and_eq_true _ _).mp h).2
    have := (List.chain'_cons'.mp hch).1 d (by simp)
    exact this ⟨hc, hd⟩
  | case4 c d rest h ih =>
    intro hch
    have hsq : squeeze (c :: d :: rest) = c :: squeeze (d :: rest) := by
      simp only [squeeze]
      rw [if_neg h]
    rw [hsq]
    rw [ih (List.chain'_cons'.mp hch).2]

theorem head?_dropWhile_not (p : Char → Bool) :
    ∀ (l : List Char) (c : Char), (l.dropWhile p).head? = some c → p c = false := by
  intro l
  induction l with
  | nil => intro c h; simp [List.dropWhile] at h
  | cons a l ih =>
    intro c h
    by_cases hp : p a
    · rw [List.dropWhile_cons, if_pos hp] at h
      exact ih c h
    · rw [List.dropWhile_cons, if_neg hp] at h
      have : a = c := by injection h
      subst this
      exact Bool.of_not_eq_true hp

theorem head?_of_isPrefix {l m : List Char} (h : l <+: m) (hl : l ≠ []) :
    m.head? = l.head? := by
  obtain ⟨t, rfl⟩ := h
  cases l with
  | nil => exact absurd rfl hl
  | cons a l => rfl

theorem head?_take_pos : ∀ (n : Nat), 0 < n → ∀ (l : List Char),
    (l.take n).head? = l.head? := by
  intro n hn l
  cases n with
  | zero => omega
  | succ m => cases l <;> rfl

/-- All characters surviving the full pipeline belong to the kept class. -/
theorem sanitize_mem_keep (x : List Char) :
    ∀ c ∈ sanitize x, keepChar c = true := by
  intro c hc
  unfold sanitize at hc
  have h1 : c ∈ stripUnd (squeeze (x.map replChar)) :=
    ( List.take_prefix _ _).subset hc
  have h2 : c ∈ squeeze (x.map replChar) := by
    unfold stripUnd at h1
    have := ( List.rdropWhile_prefix isUnd _).subset h1
    exact (List.dropWhile_suffix isUnd).subset this
  have h3 : c ∈ x.map replChar := (squeeze_sublist _).subset h2
  obtain ⟨a, _, rfl⟩ := List.mem_map.mp h3
  by_cases h : keepChar a = true
  · rw [replChar, if_pos h]
    exact h
  · rw [replChar, if_neg h]
    decide

/-- The sanitized string never has two adjacent underscores. -/
theorem sanitize_chain (x : List Char) : (sanitize x).Chain' NotUU := by
  unfold sanitize
  have h := squeeze_chain (x.map replChar)
  have h1 : (stripUnd (squeeze (x.map replChar))).Chain' NotUU := by
    unfold stripUnd
    exact List.Chain'.prefix (h.suffix (List.dropWhile_suffix isUnd)) ( List.rdropWhile_prefix isUnd _)
  exact List.Chain'.prefix h1 ( List.take_prefix _ _)

/-- The sanitized string never starts with an underscore. -/
theorem sanitize_head (x : List Char) :
    ∀ c, (sanitize x).head? = some c → c ≠ '_' := by
  intro c hc
  unfold sanitize at hc
  rw [head?_take_pos 255 (by omega)] at hc
  unfold stripUnd at hc
  by_cases hnil : ((squeeze (x.map replChar)).dropWhile isUnd).rdropWhile isUnd = []
  · rw [hnil] at hc; simp at hc
  · rw [← head?_of_isPrefix ( List.rdropWhile_prefix isUnd _) hnil] at hc
    have := head?_dropWhile_not isUnd _ c hc
    intro h
    rw [h] at this
    simp [isUnd] at this

/-- When truncation does not fire (the stripped string already fits in 255
characters), the sanitized string never ends with an underscore. -/
theorem sanitize_last_of_short (x : List Char)
    (h : (stripUnd (squeeze (x.map replChar))).length ≤ 255) :
    ∀ c, (sanitize x).getLast? = some c → c ≠ '_' := by
  intro c hc
  unfold sanitize at hc
  rw [List.take_of_length_le h] at hc
  unfold stripUnd at hc
  simp only [List.rdropWhile] at hc
  rw [List.getLast?_reverse] at hc
  have := head?_dropWhile_not isUnd _ c hc
  intro hceq
  rw [hceq] at this
  simp [isUnd] at this

theorem map_keep_id : ∀ (l : List Char),
    (∀ c ∈ l, keepChar c = true) → l.map replChar = l := by
  intro l
  induction l with
  | nil => intro _; rfl
  | cons a t ih =>
    intro h
    have ha : keepChar a = true := h a (List.mem_cons_self a t)
    have ht : ∀ c ∈ t, keepChar c = true := fun c hc => h c (List.mem_cons_of_mem a hc)
    simp only [List.map_cons]
    rw [replChar, if_pos ha, ih ht]

theorem dropWhile_isUnd_eq_self : ∀ (l : List Char),
    (∀ c, l.head? = some c → c ≠ '_') → l.dropWhile isUnd = l := by
  intro l h
  cases l with
  | nil => rfl
  | cons a t =>
    have ha : a ≠ '_' := h a rfl
    rw [List.dropWhile_cons, if_neg]
    intro hu
    exact ha (eq_of_beq hu)

theorem sanitize_len_le (x : List Char) : (sanitize x).length ≤ 255 := by
  unfold sanitize
  calc (List.take 255 (stripUnd (squeeze (x.map replChar)))).length
      ≤ 255 := List.length_take_le _ _

/-! ### Claim theorems -/

/-- C1: the code's extension resolver does NOT behave as claimed.  Because
`_get_extension` tests `content_type in k` (the header inside the mapping
key) instead of `k in content_type`, a header containing `text/html` such
as `"text/html; charset=utf-8"` falls through to the default `".txt"`,
while the spec-described resolver (`getExtensionSpec`, the direction the
code's own comment documents) gives `".html"`.  The spec's own example
`"text/plain; charset=utf-8" ↦ ".txt"` only holds via the default case,
and the empty header maps to `".html"`. -/
theorem C1_get_extension_bug :
    getExtension "text/html; charset=utf-8" = ".txt" ∧
    getExtensionSpec "text/html; charset=utf-8" = ".html" ∧
    getExtension "text/plain; charset=utf-8" = ".txt" ∧
    getExtension "" = ".html" := by
  refine ⟨?_, ?_, ?_, ?_⟩ <;> decide

/-- C2 (counterexample): on an input of 254 word characters followed by
`"_b"`, the stripped string has 256 characters and truncation to 255 cuts
exactly after the underscore, so `sanitize` returns a string that ends in
an underscore. -/
theorem C2_counterexample :
    (sanitize (List.replicate 254 'a' ++ ['_', 'b'])).getLast? = some '_' := by
  decide

/-- C2 (amended): `sanitize` always returns at most 255 characters, with
no two adjacent underscores and no leading underscore; it also has no
trailing underscore provided the string entering the final truncation
step already fits in 255 characters (truncation can expose a trailing
underscore, as the counterexample shows). -/
theorem C2_sanitize_shape (x : List Char) :
    (sanitize x).length ≤ 255 ∧
    (sanitize x).Chain' NotUU ∧
    (∀ c, (sanitize x).head? = some c → c ≠ '_') ∧
    ((stripUnd (squeeze (x.map replChar))).length ≤ 255 →
      ∀ c, (sanitize x).getLast? = some c → c ≠ '_') := by
  exact ⟨sanitize_len_le x, sanitize_chain x, sanitize_head x,
    fun h => sanitize_last_of_short x h⟩

/-- C2 (witness): the shape theorem applied at `"ab_cd"`, where the
pre-truncation string is short, so all four conjuncts apply. -/
theorem C2_sanitize_shape_witness :
    (stripUnd (squeeze ("ab_cd".data.map replChar))).length ≤ 255 ∧
    ∀ c, (sanitize "ab_cd".data).getLast? = some c → c ≠ '_' :=
  ⟨by decide, (C2_sanitize_shape "ab_cd".data).2.2.2 (by decide)⟩

/-- C3 (counterexample): `sanitize` is not idempotent.  On 254 word
characters followed by `"_c"`, the first application truncates to a string
ending in `'_'`, and the second application strips that underscore. -/
theorem C3_counterexample :
    sanitize (sanitize (List.replicate 254 'a' ++ ['_', 'c'])) ≠
      sanitize (List.replicate 254 'a' ++ ['_', 'c']) := by
  decide

/-- C3 (amended): a second application of `sanitize` equals the first with
any trailing underscores removed; in particular `sanitize` is idempotent
exactly on those inputs whose sanitized form has no trailing underscore
(which only truncation can produce). -/
theorem C3_sanitize_almost_idempotent (x : List Char) :
    sanitize (sanitize x) = (sanitize x).rdropWhile isUnd := by
  have h1 : (sanitize x).map replChar = sanitize x :=
    map_keep_id (sanitize x) (sanitize_mem_keep x)
  have h2 : squeeze (sanitize x) = sanitize x :=
    squeeze_of_chain (sanitize x) (sanitize_chain x)
  have h3 : (sanitize x).dropWhile isUnd = sanitize x :=
    dropWhile_isUnd_eq_self (sanitize x) (sanitize_head x)
  have h4 : ((sanitize x).rdropWhile isUnd).length ≤ 255 :=
    le_trans (( List.rdropWhile_prefix isUnd (sanitize x)).length_le)
      (sanitize_len_le x)
  show (stripUnd (squeeze ((sanitize x).map replChar))).take 255 =
    (sanitize x).rdropWhile isUnd
  rw [h1, h2]
  unfold stripUnd
  rw [h3]
  exact List.take_of_length_le h4

/-- C4 (counterexample): `.ipynb` is not among the four extensions the
claim excludes from the "never fails" lossy fallback, yet `read_unicode`
on an `.ipynb` file does not succeed: the notebook branch calls the
undefined `convert_ipynb_to_py`, so it raises instead of decoding. -/
theorem C4_counterexample :
    pathSuffix "nb.ipynb" ∉ ([".pdf", ".html", ".txt", ".json"] : List String) ∧
    (read_unicode (fun _ => "") "nb.ipynb" []).isOk = false := by
  refine ⟨by decide, by decide⟩

/-- C4 (amended): the two-tier decode policy holds once `.ipynb` is also
excluded from the lossy tier: `.txt` / `.json` files decode strictly
(success exactly when the bytes are valid UTF-8), and every file whose
extension is not `.pdf`, `.html`, `.txt`, `.json` or `.ipynb` is decoded
lossily and never fails, for any byte content. -/
theorem C4_decode_policy (soup : List Nat → String) (name : String)
    (content : List Nat) :
    ((pathSuffix name = ".txt" ∨ pathSuffix name = ".json") →
      (read_unicode soup name content).isOk = (utf8Decode content).isSome) ∧
    (pathSuffix name ∉
        ([".pdf", ".html", ".txt", ".json", ".ipynb"] : List String) →
      (read_unicode soup name content).isOk = true) := by
  constructor
  · intro h
    rcases h with h | h <;>
      · simp only [read_unicode, h]
        norm_num
        cases utf8Decode content <;> simp [Except.isOk, Except.toBool]
  · intro h
    simp only [List.mem_cons, not_or] at h
    obtain ⟨h1, h2, h3, h4, h5, -⟩ := h
    simp [read_unicode, beq_iff_eq, h1, h2, h3, h4, h5,
      Except.isOk, Except.toBool]

/-- C4 (witness): the policy theorem applied at a `.txt` file with an
invalid byte (strict tier, where the decode indeed fails) and at a `.bin`
file with invalid bytes (lossy tier, which succeeds). -/
theorem C4_decode_policy_witness :
    ((read_unicode (fun _ => "") "a.txt" [0xFF]).isOk =
      (utf8Decode [0xFF]).isSome) ∧
    (read_unicode (fun _ => "") "b.bin" [0xFF, 0x61]).isOk = true :=
  ⟨(C4_decode_policy (fun _ => "") "a.txt" [0xFF]).1 (Or.inl (by decide)),
   (C4_decode_policy (fun _ => "") "b.bin" [0xFF, 0x61]).2 (by decide)⟩

/-- C5 (counterexample): a network failure that is not an `SSLError`
(e.g. a connection error from `requests.get`) is NOT absorbed into an
empty list: the generic HTTP path of `fetch_online` only catches
`SSLError`, so the exception propagates to the caller. -/
theorem C5_counterexample :
    fetch_online none "https://example.org/a" (GitResult.cloneOk [])
        YtResult.ytErr (HttpResult.netExn "connection refused") [] =
      ([], Except.error (FetchErr.httpExn "connection refused")) := by
  decide

/-- C5 (amended): in the generic HTTP path (URL not cached, no git or
video marker), an `SSLError` is caught and yields an empty list with no
exception and no cache write, and a non-200 HTTP response likewise yields
an empty list for that source; network exceptions other than `SSLError`,
however, propagate. -/
theorem C5_http_failures (title : Option String) (url : String)
    (git : GitResult) (yt : YtResult) (fs : FS) (status : Nat) (ct : String)
    (body : List Nat) (tb : String) (pt : Option String) (px : String)
    (hdir : lookupFS fs (sanitizeS (preprocessUrl url)) = none)
    (hgh : substrOf "github.com" (preprocessUrl url) = false)
    (hyt : substrOf "youtube.com" (preprocessUrl url) = false)
    (hyb : substrOf "youtu.be" (preprocessUrl url) = false)
    (hst : status ≠ 200) :
    fetch_online title url git yt HttpResult.sslError fs =
      (fs, Except.ok []) ∧
    fetch_online title url git yt (HttpResult.resp status ct body tb pt px) fs =
      (fs, Except.ok []) := by
  constructor <;>
    simp [fetch_online, hdir, hgh, hyt, hyb, hst, beq_iff_eq,
      fsNode, read_from_disk]

/-- C5 (witness): the amended failure policy at a concrete uncached URL,
with a 404 response. -/
theorem C5_http_failures_witness :
    fetch_online none "https://example.org/data" (GitResult.cloneOk [])
        YtResult.ytErr HttpResult.sslError [] = ([], Except.ok []) ∧
    fetch_online none "https://example.org/data" (GitResult.cloneOk [])
        YtResult.ytErr (HttpResult.resp 404 "text/plain" [] "" none "") [] =
      ([], Except.ok []) :=
  C5_http_failures none "https://example.org/data" (GitResult.cloneOk [])
    YtResult.ytErr [] 404 "text/plain" [] "" none ""
    (by decide) (by decide) (by decide) (by decide) (by decide)

/-- C6 (counterexample): the git-clone downloader is NOT the only one
whose errors propagate: a non-SSL exception in the generic HTTP
downloader also reaches the caller. -/
theorem C6_counterexample :
    fetch_online none "https://site.example/doc" (GitResult.cloneOk [])
        YtResult.ytErr (HttpResult.netExn "timeout") [] =
      ([], Except.error (FetchErr.httpExn "timeout")) := by
  decide

/-- C6 (amended): when an uncached git-hosting URL is dispatched and the
clone fails, the clone error propagates to the caller (it is not turned
into an empty list); but the git downloader is not the only one that
propagates: the generic HTTP downloader propagates every request
exception other than `SSLError` as well. -/
theorem C6_clone_error_propagates (title : Option String) (url : String)
    (yt : YtResult) (http : HttpResult) (fs : FS) (m e : String)
    (git : GitResult)
    (hdir : lookupFS fs (sanitizeS (preprocessUrl url)) = none) :
    (substrOf "github.com" (preprocessUrl url) = true →
      fetch_online title url (GitResult.cloneErr m) yt http fs =
        ((sanitizeS (preprocessUrl url), []) :: fs,
         Except.error (FetchErr.gitClone m))) ∧
    (substrOf "github.com" (preprocessUrl url) = false →
     substrOf "youtube.com" (preprocessUrl url) = false →
     substrOf "youtu.be" (preprocessUrl url) = false →
      fetch_online title url git yt (HttpResult.netExn e) fs =
        (fs, Except.error (FetchErr.httpExn e))) := by
  constructor
  · intro hgh
    simp [fetch_online, hdir, hgh]
  · intro hgh hyt hyb
    simp [fetch_online, hdir, hgh, hyt, hyb]

/-- C6 (witness): both halves at concrete inputs — a failing clone of a
github URL propagates `gitClone`, and a connection error on a plain URL
propagates `httpExn`. -/
theorem C6_clone_error_propagates_witness :
    fetch_online none "https://github.com/u/r" (GitResult.cloneErr "boom")
        YtResult.ytErr HttpResult.sslError [] =
      ([(sanitizeS (preprocessUrl "https://github.com/u/r"), [])],
       Except.error (FetchErr.gitClone "boom")) ∧
    fetch_online none "https://plain.example/x" (GitResult.cloneOk [])
        YtResult.ytErr (HttpResult.netExn "reset") [] =
      ([], Except.error (FetchErr.httpExn "reset")) :=
  ⟨(C6_clone_error_propagates none "https://github.com/u/r" YtResult.ytErr
      HttpResult.sslError [] "boom" "e" (GitResult.cloneOk []) (by decide)).1
      (by decide),
   (C6_clone_error_propagates none "https://plain.example/x" YtResult.ytErr
      HttpResult.sslError [] "m" "reset" (GitResult.cloneOk []) (by decide)).2
      (by decide) (by decide) (by decide)⟩

/-- C7: the claim matches the intent but not the code.  For every `.pdf`
file, `read_unicode` does not extract any text: its pdf branch calls
`PdfReader`, a name that is never imported or defined anywhere in the
repository, so the call raises `NameError` instead of returning the
page texts joined with newlines. -/
theorem C7_pdf_branch_raises (soup : List Nat → String) (name : String)
    (content : List Nat) (h : pathSuffix name = ".pdf") :
    read_unicode soup name content = Except.error UniErr.nameError := by
  simp [read_unicode, h]

/-- C7 (witness): the pdf branch at the concrete file `doc.pdf`. -/
theorem C7_pdf_branch_raises_witness :
    read_unicode (fun _ => "") "doc.pdf" [] = Except.error UniErr.nameError :=
  C7_pdf_branch_raises (fun _ => "") "doc.pdf" [] (by decide)

/-- C8: video-identifier extraction returns `dQw4w9WgXcQ` for both the
shortened and the standard watch URL; and for any video-hosting URL
(contains the youtube marker, not the github one, not yet cached) from
which no pattern extracts an identifier, `fetch_online` raises nothing,
writes nothing (the cache is returned unchanged), and returns `[]`. -/
theorem C8_video_id_extraction :
    extract_video_id "https://youtu.be/dQw4w9WgXcQ" = some "dQw4w9WgXcQ" ∧
    extract_video_id "https://youtube.com/watch?v=dQw4w9WgXcQ" =
      some "dQw4w9WgXcQ" ∧
    ∀ (title : Option String) (url : String) (git : GitResult)
      (yt : YtResult) (http : HttpResult) (fs : FS),
      substrOf "github.com" (preprocessUrl url) = false →
      (substrOf "youtube.com" (preprocessUrl url) ||
        substrOf "youtu.be" (preprocessUrl url)) = true →
      extract_video_id (preprocessUrl url) = none →
      lookupFS fs (sanitizeS (preprocessUrl url)) = none →
      fetch_online title url git yt http fs = (fs, Except.ok []) := by
  refine ⟨by decide, by decide, ?_⟩
  intro title url git yt http fs hgh hyt hvid hdir
  simp [fetch_online, hdir, hgh, hyt, hvid, fsNode, read_from_disk]

/-- C8 (witness): the no-identifier case at the concrete malformed URL
`https://youtube.com/watch?v=short`. -/
theorem C8_video_id_extraction_witness :
    fetch_online none "https://youtube.com/watch?v=short"
        (GitResult.cloneOk []) YtResult.ytErr HttpResult.sslError [] =
      ([], Except.ok []) :=
  C8_video_id_extraction.2.2 none "https://youtube.com/watch?v=short"
    (GitResult.cloneOk []) YtResult.ytErr HttpResult.sslError []
    (by decide) (by decide) (by decide) (by decide)

/-- C9: reading back a cache directory returns exactly the files whose
extension is in the `FILETYPES` allow-list; in particular a directory
holding `doc.pdf` and `notes.exe` yields exactly the `doc.pdf` entry and
`notes.exe` is excluded. -/
theorem C9_read_back_filter (entries : List (String × List Nat))
    (e : String × List Nat) (b1 b2 : List Nat) :
    (e ∈ read_from_disk (PathNode.dir entries) ↔
      e ∈ entries ∧ pathSuffix e.1 ∈ FILETYPES) ∧
    read_from_disk (PathNode.dir [("doc.pdf", b1), ("notes.exe", b2)]) =
      [("doc.pdf", b1)] := by
  constructor
  · simp [read_from_disk, List.mem_filter, List.contains, List.elem_iff]
  · rfl

/-- C10: in the git path the cache directory is created before the clone
runs, so a failed clone leaves an empty directory behind; every later
`fetch_online` call for the same URL then sees the directory, consults no
downloader at all (the outcome is the same for every oracle), and returns
an empty list — the failed clone is never retried. -/
theorem C10_failed_clone_poisons_cache (title : Option String) (url : String)
    (yt : YtResult) (http : HttpResult) (fs : FS) (m : String)
    (hdir : lookupFS fs (sanitizeS (preprocessUrl url)) = none)
    (hgh : substrOf "github.com" (preprocessUrl url) = true) :
    fetch_online title url (GitResult.cloneErr m) yt http fs =
      ((sanitizeS (preprocessUrl url), []) :: fs,
       Except.error (FetchErr.gitClone m)) ∧
    ∀ (title' : Option String) (git' : GitResult) (yt' : YtResult)
      (http' : HttpResult),
      fetch_online title' url git' yt' http'
          ((sanitizeS (preprocessUrl url), []) :: fs) =
        ((sanitizeS (preprocessUrl url), []) :: fs, Except.ok []) := by
  constructor
  · simp [fetch_online, hdir, hgh]
  · intro title' git' yt' http'
    simp [fetch_online, lookupFS, List.lookup, fsNode, read_from_disk]

/-- C10 (witness): the poisoned-cache behaviour at a concrete github URL:
the first call fails with the clone error and leaves an empty directory,
the second call (with a now-succeeding clone oracle) still returns `[]`. -/
theorem C10_failed_clone_poisons_cache_witness :
    fetch_online none "https://github.com/o/p" (GitResult.cloneErr "err")
        YtResult.ytErr HttpResult.sslError [] =
      ([(sanitizeS (preprocessUrl "https://github.com/o/p"), [])],
       Except.error (FetchErr.gitClone "err")) ∧
    fetch_online none "https://github.com/o/p"
        (GitResult.cloneOk [("README.md", [0x68, 0x69])]) YtResult.ytErr
        HttpResult.sslError
        [(sanitizeS (preprocessUrl "https://github.com/o/p"), [])] =
      ([(sanitizeS (preprocessUrl "https://github.com/o/p"), [])],
       Except.ok []) :=
  ⟨(C10_failed_clone_poisons_cache none "https://github.com/o/p"
      YtResult.ytErr HttpResult.sslError [] "err" (by decide) (by decide)).1,
   (C10_failed_clone_poisons_cache none "https://github.com/o/p"
      YtResult.ytErr HttpResult.sslError [] "err" (by decide) (by decide)).2
      none (GitResult.cloneOk [("README.md", [0x68, 0x69])]) YtResult.ytErr
      HttpResult.sslError⟩

end Rosetta
